import Mathlib

/-
  Verification of the metrics-k8s-proxy core against its source.

  Go strings are modelled as lists of characters (GoStr), Go maps as
  association lists whose insert overwrites an existing key, and the
  aliasing behaviour of Go maps (reference types) as a small heap of
  registry cells addressed by natural-number references.

  Each definition mirrors one Go function of the repository:
    - util.ParseLabels, util.AppendLabels, util.AppendUpMetric
      (internal/util/helpers.go)
    - UpdatePodMetrics, DeletePodMetrics, HandlePodEvent, the WatchPods
      loop (internal/k8s/watch.go)
    - GetPodMetricsEndpoints (internal/k8s/watch.go)
    - ScrapePodMetrics, AggregateMetrics, ProxyMetrics
      (internal/handlers, MetricsHandler methods)
-/

set_option autoImplicit false

namespace MetricsProxy

/-- Go strings, modelled as lists of characters. -/
abbrev GoStr := List Char

/-- Coerce a Lean string literal to the Go string model. -/
def gs (s : String) : GoStr := s.data

/-! ## Go map model: association lists with overwrite-on-insert -/

/-- Go map assignment: overwrite the value when the key is present,
append the binding otherwise. -/
def mapSet {V : Type} : List (GoStr × V) → GoStr → V → List (GoStr × V)
  | [], k, v => [(k, v)]
  | p :: rest, k, v =>
    if p.1 = k then (k, v) :: rest else p :: mapSet rest k v

/-- Go map lookup with the comma-ok idiom: some value iff the key is present. -/
def mapGet {V : Type} : List (GoStr × V) → GoStr → Option V
  | [], _ => none
  | p :: rest, k => if p.1 = k then some p.2 else mapGet rest k

/-- Go builtin delete: remove the binding for a key, no-op when absent. -/
def mapDel {V : Type} : List (GoStr × V) → GoStr → List (GoStr × V)
  | [], _ => []
  | p :: rest, k => if p.1 = k then mapDel rest k else p :: mapDel rest k

/-! ## Go strings package: Split, Join, Contains, Replace(_,_,_,1), Fields -/

/-- Go strings.Split with a one-character separator. -/
def splitChar (sep : Char) : GoStr → List GoStr
  | [] => [[]]
  | c :: rest =>
    let r := splitChar sep rest
    if c = sep then [] :: r
    else (c :: r.headI) :: r.tail

/-- Go strings.Join with a one-character separator. -/
def joinChar (sep : Char) : List GoStr → GoStr
  | [] => []
  | [l] => l
  | l :: ls => l ++ sep :: joinChar sep ls

/-- Go strings.Replace(s, pat, repl, 1) with a one-character pattern:
replace only the first occurrence. -/
def replaceFirstChar (pat : Char) (repl : GoStr) : GoStr → GoStr
  | [] => []
  | c :: rest =>
    if c = pat then repl ++ rest else c :: replaceFirstChar pat repl rest

/-- The Unicode white-space predicate used by Go strings.Fields
(unicode.IsSpace). -/
def goIsSpace (c : Char) : Bool :=
  c = '\t' || c = '\n' || c = '\x0b' || c = '\x0c' || c = '\r' || c = ' ' ||
  c = '\u0085' || c = '\u00A0' || c = '\u1680' ||
  ('\u2000' ≤ c && c ≤ '\u200A') ||
  c = '\u2028' || c = '\u2029' || c = '\u202F' || c = '\u205F' || c = '\u3000'

/-- Split at every character satisfying the predicate (empty pieces kept). -/
def splitPred (p : Char → Bool) : GoStr → List GoStr
  | [] => [[]]
  | c :: rest =>
    let r := splitPred p rest
    if p c then [] :: r
    else (c :: r.headI) :: r.tail

/-- Go strings.Fields: split around runs of white space, dropping empties. -/
def fields (l : GoStr) : List GoStr :=
  (splitPred goIsSpace l).filter (fun f => !f.isEmpty)

/-! ## internal/util/helpers.go -/

/-- util.ParseLabels: split the selector on commas, keep the clauses that
split on the equals sign into exactly two parts, assigning
labels[kv[0]] = kv[1]. -/
def ParseLabels (labelString : GoStr) : List (GoStr × GoStr) :=
  (splitChar ',' labelString).foldl
    (fun labels pair =>
      match splitChar '=' pair with
      | [k, v] => mapSet labels k v
      | _ => labels)
    []

/-- Go strings.HasPrefix(line, the hash character). -/
def hasPrefixHash : GoStr → Bool
  | '#' :: _ => true
  | _ => false

/-- The per-line transformation inside util.AppendLabels: comments and
empty lines pass through; a line with a brace gets the identity labels
spliced in at its first brace; a brace-free line with exactly two fields
is rebuilt with a fresh label block; anything else passes through. -/
def appendLabelsLine (podName namespace_ : GoStr) (line : GoStr) : GoStr :=
  if hasPrefixHash line || line.isEmpty then line
  else if line.contains '\x7b' then
    replaceFirstChar '\x7b'
      (gs "\x7bk8s_pod_name=\"" ++ podName ++ gs "\",k8s_namespace=\"" ++
        namespace_ ++ gs "\",") line
  else
    match fields line with
    | [metricName, metricValue] =>
      metricName ++ gs "\x7bk8s_pod_name=\"" ++ podName ++
        gs "\",k8s_namespace=\"" ++ namespace_ ++ gs "\"\x7d " ++ metricValue
    | _ => line

/-- util.AppendLabels: split the payload into lines, transform each line
independently, and join the results back with newlines. -/
def AppendLabels (metricsData podName namespace_ : GoStr) : GoStr :=
  joinChar '\n'
    ((splitChar '\n' metricsData).map (appendLabelsLine podName namespace_))

/-- util.AppendUpMetric: format the up metric line for the pod and append
it to the payload after a newline separator. -/
def AppendUpMetric (metricsData podName namespace_ : GoStr)
    (status : Int) : GoStr :=
  let upMetric :=
    gs "up\x7bk8s_pod_name=\"" ++ podName ++ gs "\",k8s_namespace=\"" ++
      namespace_ ++ gs "\"\x7d " ++ (toString status).data ++ gs "\n"
  metricsData ++ gs "\n" ++ upMetric

example : ParseLabels (gs "a=1,b") = [(gs "a", gs "1")] := by decide

example : ParseLabels (gs "") = [] := by decide

example :
    appendLabelsLine (gs "p") (gs "n") (gs "m 5") =
      gs "m\x7bk8s_pod_name=\"p\",k8s_namespace=\"n\"\x7d 5" := by decide

example :
    appendLabelsLine (gs "p") (gs "n") (gs "m\x7bx=\"1\"\x7d 5") =
      gs "m\x7bk8s_pod_name=\"p\",k8s_namespace=\"n\",x=\"1\"\x7d 5" := by
  decide

example :
    AppendUpMetric (gs "") (gs "p") (gs "n") 0 =
      gs "\nup\x7bk8s_pod_name=\"p\",k8s_namespace=\"n\"\x7d 0\n" := by decide

/-! ## internal/k8s/watch.go: registry state and event handling -/

/-- PodScrapeDetails (also named PodMetrics in the MetricsManager variant):
endpoint details and identity metadata stored per pod IP. -/
structure PodScrapeDetails where
  port : GoStr
  path : GoStr
  podName : GoStr
  namespace_ : GoStr
deriving DecidableEq

/-- The slice of a corev1.Pod the registry reads: name, namespace, status
pod IP, and the annotation map. -/
structure Pod where
  name : GoStr
  namespace_ : GoStr
  podIP : GoStr
  annotations : List (GoStr × GoStr)
deriving DecidableEq

/-- The registry content: the PodMetricsEndpoints map, keyed by pod IP. -/
abbrev Registry := List (GoStr × PodScrapeDetails)

/-- UpdatePodMetrics: insert or overwrite the entry for the pod IP, but
only when the scrape annotation exists and equals the string true and the
pod IP is non-empty; missing or empty port and path annotations default
to 80 and /metrics. -/
def UpdatePodMetrics (pod : Pod) (reg : Registry) : Registry :=
  match mapGet pod.annotations (gs "prometheus.io/scrape") with
  | none => reg
  | some scrape =>
    if scrape = gs "true" then
      if pod.podIP = [] then reg
      else
        let port := (mapGet pod.annotations (gs "prometheus.io/port")).getD []
        let port := if port = [] then gs "80" else port
        let path := (mapGet pod.annotations (gs "prometheus.io/path")).getD []
        let path := if path = [] then gs "/metrics" else path
        mapSet reg pod.podIP ⟨port, path, pod.name, pod.namespace_⟩
    else reg

/-- DeletePodMetrics: delete the entry stored under the pod IP when the
pod IP is non-empty; no other field of the pod is consulted. -/
def DeletePodMetrics (pod : Pod) (reg : Registry) : Registry :=
  if pod.podIP = [] then reg
  else mapDel reg pod.podIP

/-- One event received on the watch stream; malformed stands for an event
object that fails the cast to a Pod. -/
inductive WatchEvent where
  | added (pod : Pod)
  | modified (pod : Pod)
  | deleted (pod : Pod)
  | bookmark
  | errorEvent
  | malformed
deriving DecidableEq

/-- HandlePodEvent: Added and Modified upsert, Deleted removes, Bookmark
does nothing, Error is logged and ignored, a failed cast is logged and
dropped. -/
def HandlePodEvent (event : WatchEvent) (reg : Registry) : Registry :=
  match event with
  | .added pod => UpdatePodMetrics pod reg
  | .modified pod => UpdatePodMetrics pod reg
  | .deleted pod => DeletePodMetrics pod reg
  | .bookmark => reg
  | .errorEvent => reg
  | .malformed => reg

/-- One attempt of the WatchPods loop body: either the Watch call returns
an error, or it yields a stream that delivers some events and then
closes. -/
inductive WatchAttempt where
  | establishError
  | established (events : List WatchEvent)
deriving DecidableEq

/-- One iteration of the WatchPods for-loop: a Watch error hits the fatal
log call and terminates the process (none); otherwise every event of the
stream is handled and, when the stream closes, the loop re-issues the
Watch call with the accumulated registry (some). -/
def watchIteration (attempt : WatchAttempt) (reg : Registry) :
    Option Registry :=
  match attempt with
  | .establishError => none
  | .established events =>
    some (events.foldl (fun r e => HandlePodEvent e r) reg)

/-- The WatchPods loop run over a finite prefix of watch attempts: none
means the process was terminated during that prefix. -/
def WatchPods (attempts : List WatchAttempt) (reg : Registry) :
    Option Registry :=
  attempts.foldl (fun st a => st.bind (watchIteration a)) (some reg)

/-! ## Registry heap: Go maps are reference values

GetPodMetricsEndpoints copies the map into a fresh one under the mutex
and returns the copy; the part_002 request path instead reads the
PodMetricsEndpoints field itself. The heap makes the difference
observable: cells hold map contents, references are cell indices. -/

/-- A heap of registry cells; a Go map value is a reference (index). -/
structure RegistryHeap where
  cells : List Registry
deriving DecidableEq

/-- Read the map content a reference designates. -/
def deref (w : RegistryHeap) (r : Nat) : Registry :=
  w.cells.getD r []

/-- Overwrite the content of one cell. -/
def setCell (w : RegistryHeap) (r : Nat) (m : Registry) : RegistryHeap :=
  ⟨w.cells.set r m⟩

/-- Allocate a fresh cell (Go make(map...)) holding the given content. -/
def allocCell (w : RegistryHeap) (m : Registry) : RegistryHeap × Nat :=
  (⟨w.cells ++ [m]⟩, w.cells.length)

/-- The copy loop of GetPodMetricsEndpoints: range over the map and assign
every binding into the fresh map. -/
def copyEndpoints (m : Registry) : Registry :=
  m.foldl (fun acc p => mapSet acc p.1 p.2) []

/-- GetPodMetricsEndpoints: allocate a fresh map, copy every binding of
the registry cell into it under the mutex, and return the copy. -/
def GetPodMetricsEndpoints (w : RegistryHeap) (r : Nat) :
    RegistryHeap × Nat :=
  allocCell w (copyEndpoints (deref w r))

/-- The read the part_002 AggregateMetrics performs: it ranges over the
watcher's PodMetricsEndpoints field directly, so the reference it holds
is the registry's own reference. -/
def aggregateEndpointsRead (w : RegistryHeap) (r : Nat) :
    RegistryHeap × Nat :=
  (w, r)

/-- A watch-loop upsert acting through the registry's reference. -/
def upsertOnRef (w : RegistryHeap) (r : Nat) (pod : Pod) : RegistryHeap :=
  setCell w r (UpdatePodMetrics pod (deref w r))

/-- A watch-loop removal acting through the registry's reference. -/
def deleteOnRef (w : RegistryHeap) (r : Nat) (pod : Pod) : RegistryHeap :=
  setCell w r (DeletePodMetrics pod (deref w r))

/-! ## internal/handlers (part_002): scrape, aggregate, respond -/

/-- The outcome of the HTTP client Do call: a transport or context error,
or a response carrying a status code and a body read that either fails
(none) or yields the bytes (some). -/
inductive DoResult where
  | doError
  | response (statusCode : Int) (bodyRead : Option GoStr)
deriving DecidableEq

/-- The environment a single scrape runs against: whether building the
request succeeds, and what the Do call returns. -/
structure ScrapeEnv where
  reqBuildOk : Bool
  result : DoResult
deriving DecidableEq

/-- ScrapePodMetrics: every failure (request build, transport, status
other than 200, body read) yields the up 0 metric with an empty payload;
a 200 response whose body reads yields the labelled body with the up 1
metric. The function always returns a string, never an error. -/
def ScrapePodMetrics (env : ScrapeEnv) (podIP : GoStr)
    (metricsEndpoint : PodScrapeDetails) : GoStr :=
  if !env.reqBuildOk then
    AppendUpMetric [] metricsEndpoint.podName metricsEndpoint.namespace_ 0
  else
    match env.result with
    | .doError =>
      AppendUpMetric [] metricsEndpoint.podName metricsEndpoint.namespace_ 0
    | .response statusCode bodyRead =>
      if statusCode ≠ 200 then
        AppendUpMetric [] metricsEndpoint.podName metricsEndpoint.namespace_ 0
      else
        match bodyRead with
        | none =>
          AppendUpMetric [] metricsEndpoint.podName
            metricsEndpoint.namespace_ 0
        | some body =>
          AppendUpMetric
            (AppendLabels body metricsEndpoint.podName
              metricsEndpoint.namespace_)
            metricsEndpoint.podName metricsEndpoint.namespace_ 1

/-- One entry of the fan-out: the target, whether the request context is
already done when this target's goroutine reaches its select, and the
scrape environment the goroutine would run against. -/
structure TargetRun where
  podIP : GoStr
  metrics : PodScrapeDetails
  ctxDoneAtDispatch : Bool
  env : ScrapeEnv
deriving DecidableEq

/-- AggregateMetrics: one goroutine per registry entry; a goroutine whose
select sees the context already done returns without appending anything,
every other goroutine appends its scrape result to the shared slice. -/
def AggregateMetrics (runs : List TargetRun) : List GoStr :=
  runs.filterMap (fun r =>
    if r.ctxDoneAtDispatch then none
    else some (ScrapePodMetrics r.env r.podIP r.metrics))

/-- ProxyMetrics: join the collected responses with newlines and write
them with status 200 when there is at least one, otherwise write header
204 No Content with an empty body. -/
def ProxyMetrics (runs : List TargetRun) : Int × GoStr :=
  let responses := AggregateMetrics runs
  if responses.length > 0 then (200, joinChar '\n' responses)
  else (204, [])

example : ProxyMetrics [] = (204, []) := by decide

example :
    UpdatePodMetrics
      ⟨gs "p", gs "ns", gs "10.0.0.1",
        [(gs "prometheus.io/scrape", gs "true")]⟩ [] =
      [(gs "10.0.0.1", ⟨gs "80", gs "/metrics", gs "p", gs "ns"⟩)] := by
  decide

example :
    UpdatePodMetrics
      ⟨gs "p", gs "ns", gs "10.0.0.1",
        [(gs "prometheus.io/scrape", gs "false")]⟩ [] = [] := by decide

example : WatchPods [.establishError] [] = none := by decide

/-! ## Helper lemmas on the Go string and map models -/

theorem splitChar_ne_nil (sep : Char) (l : GoStr) : splitChar sep l ≠ [] := by
  cases l with
  | nil => simp [splitChar]
  | cons c rest =>
    simp only [splitChar]
    by_cases h : c = sep <;> simp [h]

theorem splitChar_length (sep : Char) (l : GoStr) :
    (splitChar sep l).length = l.count sep + 1 := by
  induction l with
  | nil => simp [splitChar]
  | cons c rest ih =>
    simp only [splitChar]
    by_cases h : c = sep
    · simp [h, List.count_cons, ih]
    · have hne := splitChar_ne_nil sep rest
      rcases hr : splitChar sep rest with _ | ⟨f, fs⟩
      · exact absurd hr hne
      · simp [h, List.count_cons, hr] at ih ⊢
        omega

theorem splitChar_count_zero (sep : Char) (l : GoStr)
    (h : l.count sep = 0) : splitChar sep l = [l] := by
  induction l with
  | nil => simp [splitChar]
  | cons c rest ih =>
    simp only [List.count_cons] at h
    by_cases hc : c = sep
    · simp [hc] at h
    · have h0 : rest.count sep = 0 := by
        simp [hc] at h
        omega
      simp [splitChar, hc, ih h0]

theorem splitChar_count_one (sep : Char) (l : GoStr)
    (h : l.count sep = 1) :
    splitChar sep l =
      [l.takeWhile (fun c => c != sep),
        (l.dropWhile (fun c => c != sep)).tail] := by
  induction l with
  | nil => simp at h
  | cons c rest ih =>
    simp only [List.count_cons] at h
    by_cases hc : c = sep
    · have h0 : rest.count sep = 0 := by
        simp [hc] at h
        omega
      simp [splitChar, hc, splitChar_count_zero sep rest h0,
        List.takeWhile_cons, List.dropWhile_cons]
    · have h1 : rest.count sep = 1 := by
        simp [hc] at h
        omega
      simp [splitChar, hc, ih h1, List.takeWhile_cons, List.dropWhile_cons]

theorem mapGet_mapDel_self {V : Type} (m : List (GoStr × V)) (k : GoStr) :
    mapGet (mapDel m k) k = none := by
  induction m with
  | nil => simp [mapGet, mapDel]
  | cons p rest ih =>
    by_cases h : p.1 = k
    · simpa [mapDel, h] using ih
    · simpa [mapDel, mapGet, h] using ih

theorem mapGet_mapDel_ne {V : Type} (m : List (GoStr × V)) (k a : GoStr)
    (h : a ≠ k) : mapGet (mapDel m k) a = mapGet m a := by
  have hka : ¬k = a := fun hh => h hh.symm
  induction m with
  | nil => simp [mapGet, mapDel]
  | cons p rest ih =>
    by_cases hp : p.1 = k
    · simpa [mapDel, mapGet, hp, hka] using ih
    · by_cases hpa : p.1 = a
      · simp [mapDel, mapGet, hp, hpa, h]
      · simpa [mapDel, mapGet, hp, hpa] using ih

theorem mapDel_of_absent {V : Type} (m : List (GoStr × V)) (k : GoStr)
    (h : mapGet m k = none) : mapDel m k = m := by
  induction m with
  | nil => simp [mapDel]
  | cons p rest ih =>
    by_cases hp : p.1 = k
    · simp [mapGet, hp] at h
    · simp only [mapGet, hp, if_false] at h
      simp [mapDel, hp, ih h]

theorem mapSet_of_absent {V : Type} (m : List (GoStr × V)) (k : GoStr)
    (v : V) (h : ∀ q ∈ m, q.1 ≠ k) : mapSet m k v = m ++ [(k, v)] := by
  induction m with
  | nil => simp [mapSet]
  | cons p rest ih =>
    have hp : ¬p.1 = k := h p (by simp)
    simp only [mapSet, hp, if_false, List.cons_append, List.cons.injEq,
      true_and]
    exact ih (fun q hq => h q (by simp [hq]))

theorem copyEndpoints_foldl (m : Registry) :
    ∀ acc : Registry, (m.map Prod.fst).Nodup →
      (∀ p ∈ m, ∀ q ∈ acc, q.1 ≠ p.1) →
      m.foldl (fun a p => mapSet a p.1 p.2) acc = acc ++ m := by
  induction m with
  | nil => intro acc _ _; simp
  | cons p rest ih =>
    intro acc hnd hdisj
    simp only [List.map_cons, List.nodup_cons] at hnd
    have hstep : mapSet acc p.1 p.2 = acc ++ [(p.1, p.2)] :=
      mapSet_of_absent acc p.1 p.2 (fun q hq => hdisj p (by simp) q hq)
    simp only [List.foldl_cons, hstep]
    rw [ih (acc ++ [(p.1, p.2)]) hnd.2]
    · simp
    · intro r hr q hq
      rcases List.mem_append.1 hq with hq | hq
      · exact hdisj r (by simp [hr]) q hq
      · simp only [List.mem_singleton] at hq
        subst hq
        intro hcontra
        exact hnd.1 (hcontra ▸ List.mem_map_of_mem Prod.fst hr)

theorem copyEndpoints_eq_self (m : Registry)
    (h : (m.map Prod.fst).Nodup) : copyEndpoints m = m := by
  simpa using copyEndpoints_foldl m [] h (by simp)

theorem replaceFirstChar_append (pat : Char) (repl a b : GoStr)
    (h : pat ∉ a) :
    replaceFirstChar pat repl (a ++ pat :: b) = a ++ repl ++ b := by
  induction a with
  | nil => simp [replaceFirstChar]
  | cons c a' ih =>
    have hc : ¬c = pat := fun hh => h (hh ▸ List.mem_cons_self c a')
    simp only [List.cons_append, replaceFirstChar, hc, if_false]
    simp [ih (fun hm => h (List.mem_cons_of_mem c hm))]

theorem scrapePodMetrics_of_doError (env : ScrapeEnv) (podIP : GoStr)
    (m : PodScrapeDetails) (h : env.result = .doError) :
    ScrapePodMetrics env podIP m =
      AppendUpMetric [] m.podName m.namespace_ 0 := by
  cases hb : env.reqBuildOk <;> simp [ScrapePodMetrics, hb, h]

/-! ## Spec-side definitions, written from the specification's words -/

/-- The liveness line exactly as the spec words it: one line of the form
up\x7bk8s_pod_name="name",k8s_namespace="namespace"\x7d status,
terminated by a newline. -/
def livenessLineSpec (podName namespace_ : GoStr) (status : Int) : GoStr :=
  gs "up\x7bk8s_pod_name=\"" ++ podName ++ gs "\",k8s_namespace=\"" ++
    namespace_ ++ gs "\"\x7d " ++ (toString status).data ++ gs "\n"

/-- The label parser as the spec words it: split on commas, keep exactly
the clauses containing exactly one equals sign, map the part before the
equals sign to the part after it, drop every other clause. -/
def ParseLabelsSpec (labelString : GoStr) : List (GoStr × GoStr) :=
  (splitChar ',' labelString).foldl
    (fun labels pair =>
      if pair.count '=' = 1 then
        mapSet labels (pair.takeWhile (fun c => c != '='))
          ((pair.dropWhile (fun c => c != '=')).tail)
      else labels)
    []

theorem parseLabels_step_eq (labels : List (GoStr × GoStr)) (pair : GoStr) :
    (match splitChar '=' pair with
      | [k, v] => mapSet labels k v
      | _ => labels) =
      (if pair.count '=' = 1 then
        mapSet labels (pair.takeWhile (fun c => c != '='))
          ((pair.dropWhile (fun c => c != '=')).tail)
      else labels) := by
  by_cases h : pair.count '=' = 1
  · rw [splitChar_count_one '=' pair h]
    simp [h]
  · have hlen := splitChar_length '=' pair
    rcases hs : splitChar '=' pair with _ | ⟨x, _ | ⟨y, _ | ⟨z, rest⟩⟩⟩
    · simp [h]
    · simp [h]
    · rw [hs] at hlen
      simp only [List.length_cons, List.length_nil] at hlen
      exact absurd (by omega) h
    · simp [h]

theorem getLast?_append_newline (l : GoStr) :
    (l ++ ['\n']).getLast? = some '\n' := by simp

/-! ## Claim theorems -/

/-- Claim C1: the claim states that the request handler always responds
with status 200 and, on an empty registry snapshot, with an empty 200
body. The code contradicts this and its own test (the No Endpoints to
Scrape case of Test_ProxyMetrics expects 200 with an empty body): with
no collected responses, ProxyMetrics writes header 204 No Content. This
theorem evaluates the code at the failing input, the empty registry. -/
theorem proxyMetrics_empty_registry_writes_204 :
    ProxyMetrics [] = (204, []) ∧ ¬((204 : Int) = 200) := by decide

/-- Claim C5: AppendUpMetric appends, after a newline separator, exactly
one newline-terminated line of the spec's liveness shape; with an empty
payload and status 0 the result is a literal newline followed by the
liveness line. -/
theorem appendUpMetric_single_liveness_line
    (metricsData podName namespace_ : GoStr) (status : Int)
    (hs : status = 0 ∨ status = 1) (hn : podName.count '\n' = 0)
    (hns : namespace_.count '\n' = 0) :
    AppendUpMetric metricsData podName namespace_ status =
        metricsData ++ '\n' :: livenessLineSpec podName namespace_ status ∧
      (livenessLineSpec podName namespace_ status).count '\n' = 1 ∧
      (livenessLineSpec podName namespace_ status).getLast? = some '\n' ∧
      AppendUpMetric [] podName namespace_ 0 =
        '\n' :: livenessLineSpec podName namespace_ 0 := by
  refine ⟨?_, ?_, ?_, rfl⟩
  · simp [AppendUpMetric, livenessLineSpec, gs]
  · rcases hs with h | h <;> subst h <;>
      simp [livenessLineSpec, List.count_append, hn, hns, gs] <;> decide
  · have h : livenessLineSpec podName namespace_ status =
        (gs "up\x7bk8s_pod_name=\"" ++ podName ++
          gs "\",k8s_namespace=\"" ++ namespace_ ++ gs "\"\x7d " ++
          (toString status).data) ++ ['\n'] := by
      simp [livenessLineSpec, gs]
    rw [h, getLast?_append_newline]

/-- Witness for claim C5 at concrete inputs. -/
theorem appendUpMetric_single_liveness_line_witness :
    AppendUpMetric (gs "x 1") (gs "p") (gs "n") 0 =
        gs "x 1" ++ '\n' :: livenessLineSpec (gs "p") (gs "n") 0 ∧
      (livenessLineSpec (gs "p") (gs "n") 0).count '\n' = 1 ∧
      (livenessLineSpec (gs "p") (gs "n") 0).getLast? = some '\n' ∧
      AppendUpMetric [] (gs "p") (gs "n") 0 =
        '\n' :: livenessLineSpec (gs "p") (gs "n") 0 :=
  appendUpMetric_single_liveness_line (gs "x 1") (gs "p") (gs "n") 0
    (Or.inl rfl) (by decide) (by decide)

/-- Claim C7: ParseLabels splits the selector on commas and keeps exactly
the clauses containing exactly one equals sign, mapping the part before
the equals sign to the part after it; every other clause is silently
dropped; the selector a=1,b yields only the binding of a to 1, and empty
input yields the empty mapping. -/
theorem parseLabels_keeps_exactly_single_equals_clauses
    (labelString : GoStr) :
    ParseLabels labelString = ParseLabelsSpec labelString ∧
    ParseLabels (gs "a=1,b") = [(gs "a", gs "1")] ∧
    ParseLabels [] = [] := by
  refine ⟨?_, by decide, by decide⟩
  unfold ParseLabels ParseLabelsSpec
  exact List.foldl_ext _ _ [] (fun acc pair _ => parseLabels_step_eq acc pair)

/-- Claim C9: UpdatePodMetrics leaves the registry unchanged unless the
scrape annotation exists and equals exactly true and the pod IP is
non-empty; when it inserts with the port and path annotations missing it
stores the defaults 80 and /metrics; DeletePodMetrics on an address
absent from the map leaves the registry unchanged. -/
theorem registry_write_preconditions (pod : Pod) (reg : Registry) :
    (mapGet pod.annotations (gs "prometheus.io/scrape") ≠
        some (gs "true") →
      UpdatePodMetrics pod reg = reg) ∧
    (pod.podIP = [] → UpdatePodMetrics pod reg = reg) ∧
    (mapGet pod.annotations (gs "prometheus.io/scrape") =
        some (gs "true") →
      pod.podIP ≠ [] →
      mapGet pod.annotations (gs "prometheus.io/port") = none →
      mapGet pod.annotations (gs "prometheus.io/path") = none →
      UpdatePodMetrics pod reg =
        mapSet reg pod.podIP
          ⟨gs "80", gs "/metrics", pod.name, pod.namespace_⟩) ∧
    (mapGet reg pod.podIP = none → DeletePodMetrics pod reg = reg) := by
  refine ⟨?_, ?_, ?_, ?_⟩
  · intro h
    unfold UpdatePodMetrics
    rcases hg : mapGet pod.annotations (gs "prometheus.io/scrape") with
      _ | scrape
    · rfl
    · rw [hg] at h
      have : ¬scrape = gs "true" := fun hh => h (by rw [hh])
      simp [this]
  · intro h
    unfold UpdatePodMetrics
    rcases hg : mapGet pod.annotations (gs "prometheus.io/scrape") with
      _ | scrape
    · rfl
    · by_cases ht : scrape = gs "true" <;> simp [ht, h]
  · intro hscrape hip hport hpath
    unfold UpdatePodMetrics
    rw [hscrape]
    simp [hip, hport, hpath]
  · intro h
    unfold DeletePodMetrics
    by_cases hip : pod.podIP = []
    · simp [hip]
    · simp [hip, mapDel_of_absent reg pod.podIP h]

/-- Witness for claim C9 at concrete inputs. -/
theorem registry_write_preconditions_witness :
    (UpdatePodMetrics
        ⟨gs "p", gs "ns", gs "10.0.0.1",
          [(gs "prometheus.io/scrape", gs "false")]⟩
        [] = []) ∧
    (UpdatePodMetrics
        ⟨gs "p", gs "ns", [],
          [(gs "prometheus.io/scrape", gs "true")]⟩
        [] = []) ∧
    (UpdatePodMetrics
        ⟨gs "p", gs "ns", gs "10.0.0.1",
          [(gs "prometheus.io/scrape", gs "true")]⟩
        [] =
      mapSet [] (gs "10.0.0.1")
        ⟨gs "80", gs "/metrics", gs "p", gs "ns"⟩) ∧
    (DeletePodMetrics
        ⟨gs "p", gs "ns", gs "10.0.0.1", []⟩
        [(gs "10.0.0.2", ⟨gs "80", gs "/metrics", gs "q", gs "ns"⟩)] =
      [(gs "10.0.0.2", ⟨gs "80", gs "/metrics", gs "q", gs "ns"⟩)]) :=
  ⟨(registry_write_preconditions
      ⟨gs "p", gs "ns", gs "10.0.0.1",
        [(gs "prometheus.io/scrape", gs "false")]⟩ []).1 (by decide),
    (registry_write_preconditions
      ⟨gs "p", gs "ns", [],
        [(gs "prometheus.io/scrape", gs "true")]⟩ []).2.1 rfl,
    (registry_write_preconditions
      ⟨gs "p", gs "ns", gs "10.0.0.1",
        [(gs "prometheus.io/scrape", gs "true")]⟩ []).2.2.1
      (by decide) (by decide) (by decide) (by decide),
    (registry_write_preconditions
      ⟨gs "p", gs "ns", gs "10.0.0.1", []⟩
      [(gs "10.0.0.2", ⟨gs "80", gs "/metrics", gs "q", gs "ns"⟩)]).2.2.2
      (by decide)⟩

/-- Claim C10: DeletePodMetrics keys purely on the pod IP: with a
non-empty IP it removes whatever entry is stored under that IP, whatever
pod that entry describes, and leaves every other address untouched; with
an empty IP it leaves the registry unchanged. -/
theorem deletePodMetrics_keys_on_address (pod : Pod) (reg : Registry) :
    (pod.podIP ≠ [] →
      mapGet (DeletePodMetrics pod reg) pod.podIP = none ∧
      ∀ addr, addr ≠ pod.podIP →
        mapGet (DeletePodMetrics pod reg) addr = mapGet reg addr) ∧
    (pod.podIP = [] → DeletePodMetrics pod reg = reg) := by
  constructor
  · intro hip
    unfold DeletePodMetrics
    simp only [hip, if_false]
    exact ⟨mapGet_mapDel_self reg pod.podIP,
      fun addr ha => mapGet_mapDel_ne reg pod.podIP addr ha⟩
  · intro hip
    unfold DeletePodMetrics
    simp [hip]

/-- Witness for claim C10: the delete event's pod name differs from the
stored entry's pod name, yet the entry under the shared IP is removed. -/
theorem deletePodMetrics_keys_on_address_witness :
    mapGet
        (DeletePodMetrics
          ⟨gs "pod-new", gs "ns", gs "10.0.0.1", []⟩
          [(gs "10.0.0.1", ⟨gs "80", gs "/metrics", gs "pod-old", gs "ns"⟩)])
        (gs "10.0.0.1") = none ∧
    DeletePodMetrics ⟨gs "pod-new", gs "ns", [], []⟩
        [(gs "10.0.0.1", ⟨gs "80", gs "/metrics", gs "pod-old", gs "ns"⟩)] =
      [(gs "10.0.0.1", ⟨gs "80", gs "/metrics", gs "pod-old", gs "ns"⟩)] :=
  ⟨((deletePodMetrics_keys_on_address
      ⟨gs "pod-new", gs "ns", gs "10.0.0.1", []⟩
      [(gs "10.0.0.1",
        ⟨gs "80", gs "/metrics", gs "pod-old", gs "ns"⟩)]).1
      (by decide)).1,
    (deletePodMetrics_keys_on_address
      ⟨gs "pod-new", gs "ns", [], []⟩
      [(gs "10.0.0.1",
        ⟨gs "80", gs "/metrics", gs "pod-old", gs "ns"⟩)]).2 rfl⟩

/-- Claim C4: every scrape failure (request build error, transport or
context error during the call, status other than 200, body read error)
yields exactly the liveness-0 line with an empty body prefix; a
successful scrape yields the identity-annotated body followed by the
liveness-1 line; and every outcome is one of these two strings, never a
request-level error. -/
theorem scrapePodMetrics_outcome_classification (env : ScrapeEnv)
    (podIP : GoStr) (m : PodScrapeDetails) :
    (env.reqBuildOk = false →
      ScrapePodMetrics env podIP m =
        AppendUpMetric [] m.podName m.namespace_ 0) ∧
    (env.result = .doError →
      ScrapePodMetrics env podIP m =
        AppendUpMetric [] m.podName m.namespace_ 0) ∧
    (∀ code body, env.result = .response code body → ¬code = 200 →
      ScrapePodMetrics env podIP m =
        AppendUpMetric [] m.podName m.namespace_ 0) ∧
    (∀ code, env.result = .response code none →
      ScrapePodMetrics env podIP m =
        AppendUpMetric [] m.podName m.namespace_ 0) ∧
    (∀ body, env.reqBuildOk = true →
      env.result = .response 200 (some body) →
      ScrapePodMetrics env podIP m =
        AppendUpMetric (AppendLabels body m.podName m.namespace_)
          m.podName m.namespace_ 1) ∧
    (ScrapePodMetrics env podIP m =
        AppendUpMetric [] m.podName m.namespace_ 0 ∨
      ∃ body, ScrapePodMetrics env podIP m =
        AppendUpMetric (AppendLabels body m.podName m.namespace_)
          m.podName m.namespace_ 1) := by
  obtain ⟨rb, res⟩ := env
  refine ⟨?_, ?_, ?_, ?_, ?_, ?_⟩
  · intro h
    subst h
    simp [ScrapePodMetrics]
  · intro h
    exact scrapePodMetrics_of_doError ⟨rb, res⟩ podIP m h
  · intro code body h hne
    have hres : res = .response code body := h
    subst hres
    cases rb <;> simp [ScrapePodMetrics, hne]
  · intro code h
    have hres : res = .response code none := h
    subst hres
    cases rb <;> by_cases hc : code = 200 <;>
      simp [ScrapePodMetrics, hc]
  · intro body hrb h
    have hres : res = .response 200 (some body) := h
    have hb : rb = true := hrb
    subst hres
    subst hb
    simp [ScrapePodMetrics]
  · cases rb
    · left
      simp [ScrapePodMetrics]
    · rcases res with _ | ⟨code, body⟩
      · left
        exact scrapePodMetrics_of_doError ⟨true, .doError⟩ podIP m rfl
      · by_cases hc : code = 200
        · rcases body with _ | b
          · left
            simp [ScrapePodMetrics, hc]
          · right
            exact ⟨b, by simp [ScrapePodMetrics, hc]⟩
        · left
          simp [ScrapePodMetrics, hc]

/-- Witness for claim C4 at concrete inputs: a 500 response fails with
the liveness-0 string, a 200 response succeeds with the annotated body
and the liveness-1 string. -/
theorem scrapePodMetrics_outcome_classification_witness :
    ScrapePodMetrics ⟨true, .response 500 (some (gs "oops"))⟩
        (gs "1.2.3.4") ⟨gs "8080", gs "/metrics", gs "p", gs "n"⟩ =
      AppendUpMetric [] (gs "p") (gs "n") 0 ∧
    ScrapePodMetrics ⟨true, .response 200 (some (gs "m 5"))⟩
        (gs "1.2.3.4") ⟨gs "8080", gs "/metrics", gs "p", gs "n"⟩ =
      AppendUpMetric (AppendLabels (gs "m 5") (gs "p") (gs "n"))
        (gs "p") (gs "n") 1 :=
  ⟨(scrapePodMetrics_outcome_classification
      ⟨true, .response 500 (some (gs "oops"))⟩ (gs "1.2.3.4")
      ⟨gs "8080", gs "/metrics", gs "p", gs "n"⟩).2.2.1
      500 (some (gs "oops")) rfl (by decide),
    (scrapePodMetrics_outcome_classification
      ⟨true, .response 200 (some (gs "m 5"))⟩ (gs "1.2.3.4")
      ⟨gs "8080", gs "/metrics", gs "p", gs "n"⟩).2.2.2.2.1
      (gs "m 5") rfl rfl⟩

/-- Claim C8: a fan-out target whose goroutine observes the request
context already done at dispatch contributes nothing to the aggregation
result, while a transport or context failure observed during the HTTP
call itself contributes the liveness-0 line. -/
theorem aggregateMetrics_dispatch_cancellation (runs : List TargetRun)
    (r : TargetRun) :
    AggregateMetrics runs =
        AggregateMetrics
          (runs.filter (fun t => !t.ctxDoneAtDispatch)) ∧
      (r ∈ runs → r.ctxDoneAtDispatch = false →
        r.env.result = .doError →
        AppendUpMetric [] r.metrics.podName r.metrics.namespace_ 0 ∈
          AggregateMetrics runs) := by
  constructor
  · induction runs with
    | nil => rfl
    | cons t rest ih =>
      cases ht : t.ctxDoneAtDispatch <;>
        simp [AggregateMetrics, List.filterMap_cons, List.filter_cons,
          ht] <;>
        simpa [AggregateMetrics] using ih
  · intro hmem hflag hres
    have hup : ScrapePodMetrics r.env r.podIP r.metrics =
        AppendUpMetric [] r.metrics.podName r.metrics.namespace_ 0 :=
      scrapePodMetrics_of_doError r.env r.podIP r.metrics hres
    refine List.mem_filterMap.2 ⟨r, hmem, ?_⟩
    simp [hflag, hup]

/-- Witness for claim C8: of two targets, the first sees the context done
at dispatch and is dropped, the second fails during its call and
contributes the liveness-0 line. -/
theorem aggregateMetrics_dispatch_cancellation_witness :
    AggregateMetrics
        [⟨gs "10.0.0.1", ⟨gs "80", gs "/metrics", gs "a", gs "ns"⟩,
            true, ⟨true, .response 200 (some [])⟩⟩,
          ⟨gs "10.0.0.2", ⟨gs "80", gs "/metrics", gs "b", gs "ns"⟩,
            false, ⟨true, .doError⟩⟩] =
        AggregateMetrics
          ([⟨gs "10.0.0.1", ⟨gs "80", gs "/metrics", gs "a", gs "ns"⟩,
              true, ⟨true, .response 200 (some [])⟩⟩,
            ⟨gs "10.0.0.2", ⟨gs "80", gs "/metrics", gs "b", gs "ns"⟩,
              false, ⟨true, .doError⟩⟩].filter
            (fun t => !t.ctxDoneAtDispatch)) ∧
      AppendUpMetric [] (gs "b") (gs "ns") 0 ∈
        AggregateMetrics
          [⟨gs "10.0.0.1", ⟨gs "80", gs "/metrics", gs "a", gs "ns"⟩,
              true, ⟨true, .response 200 (some [])⟩⟩,
            ⟨gs "10.0.0.2", ⟨gs "80", gs "/metrics", gs "b", gs "ns"⟩,
              false, ⟨true, .doError⟩⟩] :=
  ⟨(aggregateMetrics_dispatch_cancellation
      [⟨gs "10.0.0.1", ⟨gs "80", gs "/metrics", gs "a", gs "ns"⟩,
          true, ⟨true, .response 200 (some [])⟩⟩,
        ⟨gs "10.0.0.2", ⟨gs "80", gs "/metrics", gs "b", gs "ns"⟩,
          false, ⟨true, .doError⟩⟩]
      ⟨gs "10.0.0.2", ⟨gs "80", gs "/metrics", gs "b", gs "ns"⟩,
        false, ⟨true, .doError⟩⟩).1,
    (aggregateMetrics_dispatch_cancellation
      [⟨gs "10.0.0.1", ⟨gs "80", gs "/metrics", gs "a", gs "ns"⟩,
          true, ⟨true, .response 200 (some [])⟩⟩,
        ⟨gs "10.0.0.2", ⟨gs "80", gs "/metrics", gs "b", gs "ns"⟩,
          false, ⟨true, .doError⟩⟩]
      ⟨gs "10.0.0.2", ⟨gs "80", gs "/metrics", gs "b", gs "ns"⟩,
        false, ⟨true, .doError⟩⟩).2 (by decide) rfl rfl⟩

/-- Claim C3 counterexample: the claim states that no watch-related error
ever terminates the process; but when the Watch call itself returns an
error, the loop calls the fatal logger and the process terminates. -/
theorem watchPods_establish_error_terminates :
    WatchPods [WatchAttempt.establishError] [] = none := by decide

/-- Claim C3 as amended: an error that ends an established stream never
terminates the process — the loop handles the delivered events and then
re-issues the Watch call, for any number of iterations; only an error
returned by the Watch call itself is fatal. -/
theorem watchPods_reissues_after_stream_end (attempts : List WatchAttempt)
    (reg : Registry)
    (h : ∀ a ∈ attempts, a ≠ WatchAttempt.establishError) :
    (WatchPods attempts reg).isSome = true := by
  induction attempts generalizing reg with
  | nil => rfl
  | cons a rest ih =>
    rcases a with _ | events
    · exact absurd rfl (h _ (by simp))
    · have hstep : WatchPods (WatchAttempt.established events :: rest)
          reg =
          WatchPods rest
            (events.foldl (fun r e => HandlePodEvent e r) reg) := rfl
      rw [hstep]
      exact ih _ (fun a ha => h a (List.mem_cons_of_mem _ ha))

/-- Witness for amended claim C3: two stream closures in a row leave the
process alive. -/
theorem watchPods_reissues_after_stream_end_witness :
    (WatchPods
      [WatchAttempt.established [WatchEvent.bookmark],
        WatchAttempt.established []] []).isSome = true :=
  watchPods_reissues_after_stream_end
    [WatchAttempt.established [WatchEvent.bookmark],
      WatchAttempt.established []] [] (by decide)

/-- Claim C2 counterexample: the claim states the request path only ever
holds an independent snapshot that later registry writes cannot change;
but the part_002 AggregateMetrics reads the PodMetricsEndpoints field
itself (a live reference), and at this concrete input a subsequent
upsert through the registry changes the very map the request path
holds. -/
theorem aggregateRead_live_reference_counterexample :
    deref
        (upsertOnRef (aggregateEndpointsRead ⟨[[]]⟩ 0).1 0
          ⟨gs "pod-a", gs "ns", gs "10.0.0.1",
            [(gs "prometheus.io/scrape", gs "true")]⟩)
        (aggregateEndpointsRead ⟨[[]]⟩ 0).2 ≠
      deref ⟨[[]]⟩ 0 := by decide

/-- Claim C2 as amended: GetPodMetricsEndpoints does return an
independent copy — its content equals the registry content at snapshot
time, it is a fresh reference distinct from the registry's, and
subsequent upserts or removals through the registry reference leave the
snapshot unchanged; the part_002 request path however bypasses it. -/
theorem getPodMetricsEndpoints_snapshot_independent (w : RegistryHeap)
    (r : Nat) (hr : r < w.cells.length)
    (hkeys : ((deref w r).map Prod.fst).Nodup) :
    deref (GetPodMetricsEndpoints w r).1 (GetPodMetricsEndpoints w r).2 =
        deref w r ∧
      (GetPodMetricsEndpoints w r).2 ≠ r ∧
      (∀ pod,
        deref (upsertOnRef (GetPodMetricsEndpoints w r).1 r pod)
            (GetPodMetricsEndpoints w r).2 =
          deref w r) ∧
      (∀ pod,
        deref (deleteOnRef (GetPodMetricsEndpoints w r).1 r pod)
            (GetPodMetricsEndpoints w r).2 =
          deref w r) := by
  have hcopy : copyEndpoints (deref w r) = deref w r :=
    copyEndpoints_eq_self _ hkeys
  have hne : w.cells.length ≠ r := fun hh => absurd (hh ▸ hr) (lt_irrefl r)
  have hrne : r ≠ w.cells.length := fun hh => hne hh.symm
  refine ⟨?_, hne, fun pod => ?_, fun pod => ?_⟩
  · simpa [GetPodMetricsEndpoints, allocCell, deref, List.getD]
      using hcopy
  · simpa [GetPodMetricsEndpoints, allocCell, upsertOnRef, setCell, deref,
      List.getD, List.getElem?_set_ne hrne] using hcopy
  · simpa [GetPodMetricsEndpoints, allocCell, deleteOnRef, setCell, deref,
      List.getD, List.getElem?_set_ne hrne] using hcopy

/-- Witness for amended claim C2 at a concrete heap: the snapshot taken
from the registry cell equals its content and survives an upsert through
the registry reference. -/
theorem getPodMetricsEndpoints_snapshot_independent_witness :
    deref (GetPodMetricsEndpoints (⟨[[]]⟩ : RegistryHeap) 0).1
        (GetPodMetricsEndpoints (⟨[[]]⟩ : RegistryHeap) 0).2 =
      deref (⟨[[]]⟩ : RegistryHeap) 0 ∧
    deref
        (upsertOnRef (GetPodMetricsEndpoints (⟨[[]]⟩ : RegistryHeap) 0).1 0
          ⟨gs "pod-a", gs "ns", gs "10.0.0.1",
            [(gs "prometheus.io/scrape", gs "true")]⟩)
        (GetPodMetricsEndpoints (⟨[[]]⟩ : RegistryHeap) 0).2 =
      deref (⟨[[]]⟩ : RegistryHeap) 0 :=
  ⟨(getPodMetricsEndpoints_snapshot_independent ⟨[[]]⟩ 0 (by decide)
      (by decide)).1,
    (getPodMetricsEndpoints_snapshot_independent ⟨[[]]⟩ 0 (by decide)
      (by decide)).2.2.1
      ⟨gs "pod-a", gs "ns", gs "10.0.0.1",
        [(gs "prometheus.io/scrape", gs "true")]⟩⟩

/-- Claim C6: AppendLabels classifies every line of its input
independently: comment and empty lines pass through unchanged; a line
containing a brace has the two identity labels inserted directly after
its first brace, preserving everything after them; a brace-free line
with exactly two fields is rewritten to the name-block-value shape;
every other line passes through verbatim. -/
theorem appendLabels_line_classification (podName namespace_ : GoStr) :
    (∀ metricsData,
      AppendLabels metricsData podName namespace_ =
        joinChar '\n'
          ((splitChar '\n' metricsData).map
            (appendLabelsLine podName namespace_))) ∧
    (∀ line, hasPrefixHash line = true ∨ line = [] →
      appendLabelsLine podName namespace_ line = line) ∧
    (∀ a b, hasPrefixHash (a ++ '\x7b' :: b) = false → '\x7b' ∉ a →
      appendLabelsLine podName namespace_ (a ++ '\x7b' :: b) =
        a ++ gs "\x7bk8s_pod_name=\"" ++ podName ++
          gs "\",k8s_namespace=\"" ++ namespace_ ++ gs "\"," ++ b) ∧
    (∀ line metricName metricValue, hasPrefixHash line = false →
      '\x7b' ∉ line → fields line = [metricName, metricValue] →
      appendLabelsLine podName namespace_ line =
        metricName ++ gs "\x7bk8s_pod_name=\"" ++ podName ++
          gs "\",k8s_namespace=\"" ++ namespace_ ++ gs "\"\x7d " ++
          metricValue) ∧
    (∀ line, hasPrefixHash line = false → '\x7b' ∉ line →
      (fields line).length ≠ 2 →
      appendLabelsLine podName namespace_ line = line) := by
  refine ⟨fun _ => rfl, ?_, ?_, ?_, ?_⟩
  · rintro line (h | rfl)
    · simp [appendLabelsLine, h]
    · simp [appendLabelsLine, hasPrefixHash]
  · intro a b hhash hnotin
    have hcont : (a ++ '\x7b' :: b).contains '\x7b' = true := by simp
    have hne : (a ++ '\x7b' :: b).isEmpty = false := by
      simp [List.isEmpty_iff]
    simp only [appendLabelsLine, hhash, hne, Bool.or_self, Bool.false_or,
      Bool.or_false, if_false, hcont, if_true, Bool.not_eq_true]
    rw [replaceFirstChar_append '\x7b' _ a b hnotin]
    simp [List.append_assoc]
  · intro line metricName metricValue hhash hnotin hf
    have hnenil : line ≠ [] := by
      rintro rfl
      simp [fields, splitPred] at hf
    have hcont : line.contains '\x7b' = false := by simpa using hnotin
    have hne : line.isEmpty = false := by simp [List.isEmpty_iff, hnenil]
    simp only [appendLabelsLine, hhash, hne, Bool.or_self, Bool.false_or,
      Bool.or_false, if_false, hcont, Bool.false_eq_true]
    rw [hf]
  · intro line hhash hnotin hlen
    by_cases hnenil : line = []
    · subst hnenil
      simp [appendLabelsLine, hasPrefixHash]
    · have hcont : line.contains '\x7b' = false := by simpa using hnotin
      have hne : line.isEmpty = false := by simp [List.isEmpty_iff, hnenil]
      simp only [appendLabelsLine, hhash, hne, Bool.or_self, Bool.false_or,
        Bool.or_false, if_false, hcont, Bool.false_eq_true]
      rcases hf : fields line with _ | ⟨x, _ | ⟨y, _ | ⟨z, rest⟩⟩⟩
      · rfl
      · rfl
      · rw [hf] at hlen
        simp at hlen
      · rfl

/-- Witness for claim C6 at concrete lines: a comment line, a line with
an existing label block, a two-field line, and a three-field line. -/
theorem appendLabels_line_classification_witness :
    appendLabelsLine (gs "p") (gs "n") (gs "# HELP m") = gs "# HELP m" ∧
    appendLabelsLine (gs "p") (gs "n")
        (gs "m" ++ '\x7b' :: gs "x=\"1\"\x7d 5") =
      gs "m" ++ gs "\x7bk8s_pod_name=\"" ++ gs "p" ++
        gs "\",k8s_namespace=\"" ++ gs "n" ++ gs "\"," ++
        gs "x=\"1\"\x7d 5" ∧
    appendLabelsLine (gs "p") (gs "n") (gs "m 5") =
      gs "m" ++ gs "\x7bk8s_pod_name=\"" ++ gs "p" ++
        gs "\",k8s_namespace=\"" ++ gs "n" ++ gs "\"\x7d " ++ gs "5" ∧
    appendLabelsLine (gs "p") (gs "n") (gs "m 5 6") = gs "m 5 6" :=
  ⟨(appendLabels_line_classification (gs "p") (gs "n")).2.1
      (gs "# HELP m") (Or.inl (by decide)),
    (appendLabels_line_classification (gs "p") (gs "n")).2.2.1
      (gs "m") (gs "x=\"1\"\x7d 5") (by decide) (by decide),
    (appendLabels_line_classification (gs "p") (gs "n")).2.2.2.1
      (gs "m 5") (gs "m") (gs "5") (by decide) (by decide) (by decide),
    (appendLabels_line_classification (gs "p") (gs "n")).2.2.2.2
      (gs "m 5 6") (by decide) (by decide) (by decide)⟩

end MetricsProxy
